import Mathlib

/-!
Verification of the funcbench benchmark-comparison engine
(`funcbench/main.go`, `funcbench/env.go`).

The Go code is shallowly embedded: pure string processing becomes Lean
functions, the git repository and the filesystem become explicit state
records, and fallible operations return `Except` / `Option`.  External
collaborators (go-git, the `git worktree` commands, the benchmark
subprocess) are modelled as fields of a world record holding their
observable outcomes; the engine's own control flow is translated
line by line from the source.
-/

namespace Funcbench

/-! ## Git model

`plumbing.Hash` values are represented by their 40-character hexadecimal
string form (the code only ever compares and prints them through
`Hash.String()`).  `plumbing.ZeroHash` (and the `plumbing.Hash{}` literal)
renders as forty zeros. -/

/-- The hex rendering of `plumbing.ZeroHash` / `plumbing.Hash{}`. -/
def zeroHash : String := "0000000000000000000000000000000000000000"

/-- A go-git reference as the code observes it: `Name().String()` (the full
ref name, e.g. `refs/heads/master`) and `Hash().String()`. -/
structure GitRef where
  name : String
  hash : String
deriving DecidableEq

/-- The repository capability used by `getTargetInfo`: `repo.Head()` and
`repo.Reference(plumbing.NewBranchReferenceName(target), false)`, each of
which either yields a reference or fails with a go-git error message. -/
structure Repo where
  head : Except String GitRef
  branchRef : String → Except String GitRef

/-- Errors produced by `getTargetInfo`: a propagated go-git error
(from `Head` or `Reference`), or the `errors.Errorf` built at
main.go:283 when the target is the current branch or commit. -/
inductive TargetErr where
  | gitErr : String → TargetErr
  | sameAsCurrent : String → String → TargetErr
deriving DecidableEq

/-- Whether `pat` occurs at the head of `l`. -/
def listHasPfx : List Char → List Char → Bool
  | [], _ => true
  | _ :: _, [] => false
  | p :: ps, c :: cs => p == c && listHasPfx ps cs

/-- `strings.TrimPrefix(s, "refs/heads/")` as used at main.go:282. -/
def trimRefsHeads (s : String) : String :=
  if listHasPfx "refs/heads/".data s.data then String.mk (s.data.drop 11) else s

/-- `getTargetInfo` (main.go:272-292).  Returns the triple
`(ref, compareWithItself, error)` exactly as the Go function does: `"."`
short-circuits to `(Hash{}, true, nil)`; a failing `Head()` propagates its
error; a target equal to the current branch name (with `refs/heads/`
stripped) or to the current head hash returns the current hash, the flag
set, and a non-nil error; otherwise the target is resolved as a branch
reference. -/
def getTargetInfo (repo : Repo) (target : String) :
    String × Bool × Option TargetErr :=
  if target = "." then
    (zeroHash, true, none)
  else
    match repo.head with
    | .error e => (zeroHash, false, some (.gitErr e))
    | .ok currRef =>
      if target = trimRefsHeads currRef.name ∨ target = currRef.hash then
        (currRef.hash, true, some (.sameAsCurrent target currRef.name))
      else
        match repo.branchRef target with
        | .error e => (zeroHash, false, some (.gitErr e))
        | .ok targetRef => (targetRef.hash, false, none)

/-- A git repository state reachable through git itself: the current
branch name (after stripping `refs/heads/`) is never the single character
`"."` (git's ref-format rules forbid a ref component consisting of one
dot), and a commit hash renders as 40 hexadecimal characters, so its
string form is never `"."` either. -/
def GitRef.WF (r : GitRef) : Prop :=
  trimRefsHeads r.name ≠ "." ∧ r.hash ≠ "."

/-! ## Process runner (`commander.exec`, main.go:298-319)

The external command's behaviour is a record: the combined output it
writes, the error `cmd.Run()` reports (`none` on exit status zero), and
the wall-clock time it takes.  `commander.exec` reads only the first two;
no deadline is imposed on the command and no clock is consulted. -/

/-- Observable behaviour of one external command invocation. -/
structure CmdBehavior where
  out : String
  runErr : Option String
  elapsedNs : Nat
deriving DecidableEq

/-- The error value `commander.exec` builds at main.go:315:
the `%v` of the `cmd.Run()` error together with the output slot of the
message, which is emptied in verbose mode. -/
structure ExecErr where
  errText : String
  cmdOut : String
deriving DecidableEq

/-- The full text of the `errors.Errorf("error: %v; Command out: %s", ...)`
message. -/
def ExecErr.text (e : ExecErr) : String :=
  "error: " ++ e.errText ++ "; Command out: " ++ e.cmdOut

/-- `commander.exec` (main.go:298-319).  On a `cmd.Run()` error the
captured output is included in the error exactly when verbose mode is off
(in verbose mode it was already streamed, and `out` is reset to `""`);
on success the captured output is returned.  The command's elapsed time
is not observed. -/
def commanderExec (verbose : Bool) (cmd : CmdBehavior) : Except ExecErr String :=
  match cmd.runErr with
  | some e => .error ⟨e, if verbose then "" else cmd.out⟩
  | none => .ok cmd.out

/-! ## Worktree model

`startBenchmark` shells out to `git worktree remove` and
`git worktree add -f` (main.go:238-241).  The registry of secondary
worktrees is modelled as a list of `(path, revision)` entries;
`git worktree remove` fails when no worktree is registered at the path
and otherwise unregisters it, and `git worktree add` fails either for an
environmental reason (the `addFailsEnv` knob) or because a worktree is
already registered at the path. -/

/-- State of git's worktree registry. -/
structure FsState where
  worktrees : List (String × String)
  addFailsEnv : Bool
deriving DecidableEq

/-- Whether some worktree is registered at `path`. -/
def worktreeHasPath (fs : FsState) (path : String) : Bool :=
  fs.worktrees.any (fun wt => wt.1 == path)

/-- `git worktree remove <path>`: unregisters the worktree at `path`,
failing when there is none. -/
def worktreeRemove (fs : FsState) (path : String) : FsState × Option String :=
  if worktreeHasPath fs path then
    (⟨fs.worktrees.filter (fun wt => wt.1 != path), fs.addFailsEnv⟩, none)
  else
    (fs, some "fatal: not a working tree")

/-- `git worktree add -f <path> <rev>`: registers a fresh worktree pinned
to `rev`, failing on an environmental error or when a worktree is already
registered at `path`. -/
def worktreeAdd (fs : FsState) (path rev : String) : FsState × Option String :=
  if fs.addFailsEnv then
    (fs, some "fatal: could not create worktree")
  else if worktreeHasPath fs path then
    (fs, some "fatal: already a working tree")
  else
    (⟨(path, rev) :: fs.worktrees, fs.addFailsEnv⟩, none)

/-- The remove-then-create sequence of main.go:237-242: the outcome of
`git worktree remove` is discarded (`_, _ =`), then `git worktree add -f`
is run and only its failure is reported. -/
def prepareWorktree (fs : FsState) (path rev : String) : FsState × Option String :=
  let fs1 := (worktreeRemove fs path).1
  worktreeAdd fs1 path rev

/-! ## Orchestrator (`startBenchmark`, main.go:191-256, and the error
path of `main`, main.go:150-163)

Go's `github.com/pkg/errors` wrapping is modelled as a cons-tree of
messages, so that "wraps the original error" is a statable relation. -/

/-- A `pkg/errors` value: a leaf message or a wrap of a cause. -/
inductive GoErr where
  | msg : String → GoErr
  | wrap : String → GoErr → GoErr
deriving DecidableEq

/-- The unwrap chain of an error: the error itself followed by the causes
reachable through `errors.Wrap`. -/
def GoErr.unwraps : GoErr → List GoErr
  | .msg s => [.msg s]
  | .wrap s c => .wrap s c :: c.unwraps

/-- The `GoErr` a `getTargetInfo` error propagates as. -/
def TargetErr.toGoErr : TargetErr → GoErr
  | .gitErr e => .msg e
  | .sameAsCurrent target curr =>
    .msg ("target: " ++ target ++ " is the same as current ref " ++ curr ++
      " (or is on the same commit); No changes would be expected; Aborting")

/-- One element of the comparison report.  Modelled from the spec: the
`BenchCmp` type and the comparison code that builds it (bench.go and the
benchcmp routines) are absent from the sources; the orchestration claims
treat its elements as uninterpreted tokens. -/
structure BenchCmp where
  tag : String
deriving DecidableEq

/-- Side-effecting steps of the pipeline, in the order they are performed.
`subMode` / `crossMode` mark entry into the two branches of
`startBenchmark` (the log lines at main.go:216 and main.go:229). -/
inductive Event where
  | checkCleanExec
  | resolveTarget
  | subMode
  | crossMode
  | runBench (dir : String) (rev : String)
  | worktreeRemoveCmd (path : String)
  | worktreeAddCmd (path : String) (rev : String)
  | subCompare
  | crossCompare
deriving DecidableEq

/-- The world `startBenchmark` runs against: the repository, the root of
the primary worktree, the behaviour of the cleanliness-check command, the
outcomes of the (missing-from-source) `Benchmarker` calls keyed by the
inputs the orchestrator passes them, the worktree registry, the verbosity
flag and the compare target. -/
structure BenchWorld where
  repo : Repo
  wtRoot : String
  verbose : Bool
  cleanCmd : CmdBehavior
  execBench : String → String → Except String String
  compareSub : String → Except String (List BenchCmp)
  compareBench : String → String → Except String (List BenchCmp)
  fs : FsState
  target : String

/-- `worktreeDirName` (main.go:196). -/
def worktreeDirName : String := "_funchbench-cmp"

/-- `filepath.Join` for the one join the code performs. -/
def pathJoin (a b : String) : String := a ++ "/" ++ b

/-- `startBenchmark` (main.go:191-256), returning the result, the final
worktree-registry state, and the trace of side-effecting steps.  The
translation follows the source order: read head; run the cleanliness
check and stop on failure; resolve the target and stop on a non-nil
error; then either the sub-benchmark branch (run once, compare samples)
or the cross-revision branch (run current, best-effort remove plus
create the secondary worktree, run target, compare). -/
def startBenchmark (w : BenchWorld) :
    Except GoErr (List BenchCmp) × FsState × List Event :=
  match w.repo.head with
  | .error e => (.error (.wrap "get head" (.msg e)), w.fs, [])
  | .ok ref =>
    match commanderExec w.verbose w.cleanCmd with
    | .error e =>
      (.error (.wrap "not clean worktree" (.msg (ExecErr.text e))), w.fs,
        [Event.checkCleanExec])
    | .ok _ =>
      match getTargetInfo w.repo w.target with
      | (_, _, some e) =>
        (.error (.wrap "failed to get target info" e.toGoErr), w.fs,
          [Event.checkCleanExec, Event.resolveTarget])
      | (targetCommit, compareWithItself, none) =>
        if compareWithItself then
          let ev := [Event.checkCleanExec, Event.resolveTarget, Event.subMode,
            Event.runBench w.wtRoot ref.hash]
          match w.execBench w.wtRoot ref.hash with
          | .error e =>
            (.error (.wrap "failed to execute sub-benchmark" (.msg e)), w.fs, ev)
          | .ok subResult =>
            match w.compareSub subResult with
            | .error e =>
              (.error (.wrap "comparing sub benchmarks failed" (.msg e)), w.fs,
                ev ++ [Event.subCompare])
            | .ok cmps => (.ok cmps, w.fs, ev ++ [Event.subCompare])
        else
          let ev := [Event.checkCleanExec, Event.resolveTarget, Event.crossMode,
            Event.runBench w.wtRoot ref.hash]
          match w.execBench w.wtRoot ref.hash with
          | .error e =>
            (.error (.wrap ("failed to execute benchmark for A: " ++ ref.name)
              (.msg e)), w.fs, ev)
          | .ok newResult =>
            let cmpDir := pathJoin w.wtRoot worktreeDirName
            let fs1 := (worktreeRemove w.fs cmpDir).1
            let ev2 := ev ++ [Event.worktreeRemoveCmd cmpDir,
              Event.worktreeAddCmd cmpDir targetCommit]
            match worktreeAdd fs1 cmpDir targetCommit with
            | (fs2, some e) =>
              (.error (.wrap ("failed to checkout " ++ targetCommit ++
                " in worktree " ++ cmpDir) (.msg e)), fs2, ev2)
            | (fs2, none) =>
              let ev3 := ev2 ++ [Event.runBench cmpDir targetCommit]
              match w.execBench cmpDir targetCommit with
              | .error e =>
                (.error (.wrap ("failed to execute benchmark for B: " ++ w.target)
                  (.msg e)), fs2, ev3)
              | .ok oldResult =>
                match w.compareBench oldResult newResult with
                | .error e =>
                  (.error (.wrap "comparing benchmarks failed" (.msg e)), fs2,
                    ev3 ++ [Event.crossCompare])
                | .ok cmps => (.ok cmps, fs2, ev3 ++ [Event.crossCompare])

/-- The world of the main routine's body (main.go:150-163): the
benchmark world, the PR number selecting the automated mode, the outcome
of the best-effort `PostErr` call and the outcome of `PostResults`. -/
structure MainWorld where
  bw : BenchWorld
  ghPr : Int
  postErrFails : Bool
  postResults : List BenchCmp → Except GoErr Unit

/-- The error path of `main` (main.go:150-163): on a `startBenchmark`
error in automated mode (`ghPr ≠ 0`) a best-effort `PostErr` is made; if
that notification itself fails the returned error is the original error
wrapped with "could not log error", otherwise the original error is
returned as is.  On success the results are posted. -/
def mainRun (w : MainWorld) : Except GoErr Unit :=
  match (startBenchmark w.bw).1 with
  | .error err =>
    if w.ghPr ≠ 0 then
      if w.postErrFails then .error (.wrap "could not log error" err)
      else .error err
    else .error err
  | .ok cmps => w.postResults cmps

/-! ## Markup transform (`formatCommentToMD`, env.go:156-187) -/

/-- `unicode.IsSpace` restricted to the characters benchmark tables can
contain (Go's ASCII space set: space, tab, newline, vertical tab, form
feed, carriage return). -/
def goIsSpace (c : Char) : Bool :=
  c == ' ' || c == '\t' || c == '\n' || c == Char.ofNat 11 ||
    c == Char.ofNat 12 || c == '\r'

/-- Accumulator for `fields`: `cur` holds the characters of the field
being read, in reverse. -/
def fieldsAux (cur : List Char) : List Char → List String
  | [] => if cur.isEmpty then [] else [String.mk cur.reverse]
  | c :: cs =>
    if goIsSpace c then
      if cur.isEmpty then fieldsAux [] cs
      else String.mk cur.reverse :: fieldsAux [] cs
    else fieldsAux (c :: cur) cs

/-- `strings.Fields`: the maximal runs of non-whitespace characters. -/
def fields (s : String) : List String :=
  fieldsAux [] s.data

/-- Accumulator for `splitLines`. -/
def splitLinesAux (cur : List Char) : List Char → List String
  | [] => [String.mk cur.reverse]
  | c :: cs =>
    if c = '\n' then String.mk cur.reverse :: splitLinesAux [] cs
    else splitLinesAux (c :: cur) cs

/-- `strings.Split(s, "\n")`. -/
def splitLines (s : String) : List String :=
  splitLinesAux [] s.data

/-- Whether `pat` occurs anywhere in `l`. -/
def listContainsSeq (pat : List Char) : List Char → Bool
  | [] => listHasPfx pat []
  | c :: cs => listHasPfx pat (c :: cs) || listContainsSeq pat cs

/-- `strings.Contains(s, pat)`. -/
def strContains (s pat : String) : Bool :=
  listContainsSeq pat.data s.data

/-- The default branch of the switch at env.go:179-181:
`strings.Join(strings.Fields(e), "|")`. -/
def mdRow (e : String) : String :=
  String.intercalate "|" (fields e)

/-- The separator row inserted after each recognized header line. -/
def sepRow : String := "|-|-|-|-|"

/-- Whether the line matches one of the four sentinel header cases. -/
def isSentinel (e : String) : Bool :=
  strContains e "old ns/op" || strContains e "old MB/s" ||
    strContains e "old allocs" || strContains e "old bytes"

/-- The loop of `formatCommentToMD` (env.go:158-184).  The Go loop
mutates the slice in place and re-reads its length, so the separator row
inserted after a header line is itself visited by the next iteration;
that visit can only take the default branch (`sepRow` is non-empty and
contains none of the sentinel substrings), so it contributes
`mdRow sepRow` — written so here to keep the recursion structural. -/
def formatLines : List String → List String
  | [] => []
  | e :: rest =>
    if e = "" then e :: formatLines rest
    else if strContains e "old ns/op" then
      "| Benchmark | Old ns/op | New ns/op | Delta |" :: mdRow sepRow ::
        formatLines rest
    else if strContains e "old MB/s" then
      "| Benchmark | Old MB/s | New MB/s | Speedup |" :: mdRow sepRow ::
        formatLines rest
    else if strContains e "old allocs" then
      "| Benchmark | Old allocs | New allocs | Delta |" :: mdRow sepRow ::
        formatLines rest
    else if strContains e "old bytes" then
      "| Benchmark | Old bytes | New bytes | Delta |" :: mdRow sepRow ::
        formatLines rest
    else
      mdRow e :: formatLines rest

/-- `formatCommentToMD` (env.go:156-187): split the rendered table on
newlines, rewrite each line, join back. -/
def formatCommentToMD (rawTable : String) : String :=
  String.intercalate "\n" (formatLines (splitLines rawTable))

/-! ## Delta computation -/

/-- Modelled from the spec: the per-metric delta of the Result Parser and
Comparator (the comparison code — bench.go and the benchcmp routines — is
absent from the sources).  Spec section 4.5: the delta is the signed
percentage change, and a zero "old" denominator yields an explicit
undefined marker rather than a division fault. -/
inductive Delta where
  | undefined : Delta
  | pct : Rat → Delta
deriving DecidableEq

/-- Modelled from the spec: delta = (new − old) / old as a signed
percentage, except that a zero "old" value yields `Delta.undefined`. -/
def computeDelta (oldVal newVal : Rat) : Delta :=
  if oldVal = 0 then .undefined else .pct ((newVal - oldVal) / oldVal * 100)

/-! ## Helper lemmas -/

/-- Filtering out every entry at `path` leaves no entry at `path`. -/
theorem any_filter_path (path : String) (l : List (String × String)) :
    ((l.filter (fun wt => wt.1 != path)).any (fun wt => wt.1 == path)) = false := by
  induction l with
  | nil => rfl
  | cons a t ih =>
    by_cases h : a.1 = path
    · simp [List.filter_cons, h, ih]
    · simp [List.filter_cons, h, ih]

/-- After `git worktree remove <path>` no worktree is registered at
`path`, whether or not one was before. -/
theorem worktreeHasPath_remove (fs : FsState) (path : String) :
    worktreeHasPath (worktreeRemove fs path).1 path = false := by
  unfold worktreeRemove
  cases h : worktreeHasPath fs path with
  | true => simp [h, worktreeHasPath, any_filter_path]
  | false => simp [h]

/-- `git worktree remove` does not touch the environmental-failure knob. -/
theorem worktreeRemove_env (fs : FsState) (path : String) :
    ((worktreeRemove fs path).1).addFailsEnv = fs.addFailsEnv := by
  unfold worktreeRemove
  split <;> rfl

/-- In the absence of environmental failures the remove-then-create
sequence always succeeds and registers the fresh worktree. -/
theorem prepareWorktree_ok (fs : FsState) (path rev : String)
    (h : fs.addFailsEnv = false) :
    prepareWorktree fs path rev =
      (⟨(path, rev) :: ((worktreeRemove fs path).1).worktrees, false⟩, none) := by
  have h1 : ((worktreeRemove fs path).1).addFailsEnv = false := by
    rw [worktreeRemove_env]; exact h
  unfold prepareWorktree worktreeAdd
  simp [h1, worktreeHasPath_remove]

/-- For a target other than `"."`, a `compareWithItself = true` result of
`getTargetInfo` always comes with a non-nil error. -/
theorem getTargetInfo_flag_err (repo : Repo) (target : String) (h : target ≠ ".") :
    (getTargetInfo repo target).2.1 = true →
    (getTargetInfo repo target).2.2 ≠ none := by
  unfold getTargetInfo
  rw [if_neg h]
  split
  · simp
  · split
    · simp
    · split <;> simp

/-- Contrapositive form: for a target other than `"."`, an error-free
`getTargetInfo` result has the flag cleared. -/
theorem getTargetInfo_none_flag (repo : Repo) (target : String) (h : target ≠ ".")
    (he : (getTargetInfo repo target).2.2 = none) :
    (getTargetInfo repo target).2.1 = false := by
  cases hflag : (getTargetInfo repo target).2.1 with
  | false => rfl
  | true => exact absurd he (getTargetInfo_flag_err repo target h hflag)

/-- For a target other than `"."`, the sub-benchmark branch of
`startBenchmark` is never entered: the trace never contains `subMode`. -/
theorem startBenchmark_no_subMode (w : BenchWorld) (h : w.target ≠ ".") :
    Event.subMode ∉ (startBenchmark w).2.2 := by
  unfold startBenchmark
  cases hh : w.repo.head with
  | error e => simp
  | ok ref =>
    cases hc : commanderExec w.verbose w.cleanCmd with
    | error e => simp
    | ok out =>
      rcases hgt : getTargetInfo w.repo w.target with ⟨tc, cwi, oerr⟩
      cases oerr with
      | some e => simp
      | none =>
        have hcwi : cwi = false := by
          have h2 := getTargetInfo_none_flag w.repo w.target h (by rw [hgt])
          rw [hgt] at h2
          exact h2
        subst hcwi
        simp only [Bool.false_eq_true, if_false]
        split
        · simp
        · split
          · simp
          · split
            · simp
            · split <;> simp

/-- Every error occurs in its own unwrap chain. -/
theorem GoErr.self_mem_unwraps (e : GoErr) : e ∈ e.unwraps := by
  cases e <;> simp [GoErr.unwraps]

/-! ## Concrete states used by the witnesses -/

/-- A repository on branch `master` at `aabb`, with one other branch
`devel` at `ccdd`. -/
def repoW : Repo :=
  ⟨.ok ⟨"refs/heads/master", "aabb"⟩,
   fun t =>
     if t = "devel" then .ok ⟨"refs/heads/devel", "ccdd"⟩
     else .error "reference not found"⟩

/-- A world over `repoW` whose compare target is the current branch. -/
def benchWorldW : BenchWorld :=
  ⟨repoW, "/repo", false, ⟨"", none, 0⟩,
   fun _ _ => .ok "BenchmarkX 10 ns/op", fun _ => .ok [], fun _ _ => .ok [],
   ⟨[], false⟩, "master"⟩

/-- A world over `repoW` whose cleanliness check fails. -/
def dirtyWorld : BenchWorld :=
  ⟨repoW, "/repo", false, ⟨"", some "exit status 1", 0⟩,
   fun _ _ => .ok "", fun _ => .ok [], fun _ _ => .ok [],
   ⟨[("/repo/_funchbench-cmp", "eeff")], false⟩, "devel"⟩

/-- A world whose repository head cannot be read. -/
def failWorld : BenchWorld :=
  ⟨⟨.error "boom", fun _ => .error "reference not found"⟩, "/repo", false,
   ⟨"", none, 0⟩, fun _ _ => .ok "", fun _ => .ok [], fun _ _ => .ok [],
   ⟨[], false⟩, "devel"⟩

/-- An automated run (`ghPr = 42`) over `failWorld` whose error
notification also fails. -/
def mainWorldW : MainWorld :=
  ⟨failWorld, 42, true, fun _ => .ok ()⟩

/-! ## Claims -/

/-- C1: for a well-formed repository state, resolving a target equal to
the current branch name (with the `refs/heads/` namespace stripped) or to
the current head's hash returns the same-as-current (ambiguous target)
error; resolution never succeeds for such a target. -/
theorem getTargetInfo_sameAsCurrent (repo : Repo) (r : GitRef) (target : String)
    (hhead : repo.head = .ok r) (hwf : r.WF)
    (ht : target = trimRefsHeads r.name ∨ target = r.hash) :
    getTargetInfo repo target =
      (r.hash, true, some (.sameAsCurrent target r.name)) := by
  have hdot : target ≠ "." := by
    rcases ht with h | h
    · rw [h]; exact hwf.1
    · rw [h]; exact hwf.2
  unfold getTargetInfo
  rw [if_neg hdot, hhead]
  simp [if_pos ht]

/-- C1 witness: on `repoW`, resolving the current branch name fails with
the ambiguous-target error. -/
theorem getTargetInfo_sameAsCurrent_witness :
    getTargetInfo repoW "master" =
      ("aabb", true, some (.sameAsCurrent "master" "refs/heads/master")) :=
  getTargetInfo_sameAsCurrent repoW ⟨"refs/heads/master", "aabb"⟩ "master" rfl
    ⟨by decide, by decide⟩ (Or.inl (by decide))

/-- C2: resolving the target `"."` always succeeds in self-compare mode
with the zero hash, for every repository state — the repository is not
even consulted, so an unreadable head cannot make it fail. -/
theorem getTargetInfo_dot (repo : Repo) :
    getTargetInfo repo "." = (zeroHash, true, none) := rfl

/-- C3 counterexample: the process runner imposes no deadline, so a
command that exceeds any positive configured timeout while exiting zero
still succeeds — refuting, at the concrete command behaviour
`⟨"ok", none, 7200⟩` against a timeout of `100`, the claim that every
execution exceeding the timeout fails. -/
theorem commanderExec_timeout_cex :
    ¬ (∀ (verbose : Bool) (cmd : CmdBehavior) (timeoutNs : Nat),
        0 < timeoutNs →
        (cmd.runErr.isSome = true ∨ timeoutNs < cmd.elapsedNs) →
        ∃ e, commanderExec verbose cmd = .error e) := by
  intro hclaim
  obtain ⟨e, he⟩ :=
    hclaim false ⟨"ok", none, 7200⟩ 100 (by decide) (Or.inr (by decide))
  simp [commanderExec] at he

/-- C3 (amended): on a non-zero exit the process runner fails with an
error carrying the underlying run-error text and — exactly when verbose
mode is off — the captured combined output (in verbose mode the output
portion is empty); the runner itself enforces no timeout and records no
elapsed time or timed-out flag, so a run of any duration with exit status
zero succeeds. -/
theorem commanderExec_error_contents (verbose : Bool) (cmd : CmdBehavior) :
    (∀ e, cmd.runErr = some e →
        commanderExec verbose cmd =
          .error ⟨e, if verbose then "" else cmd.out⟩) ∧
    (cmd.runErr = none → commanderExec verbose cmd = .ok cmd.out) := by
  constructor
  · intro e he
    simp [commanderExec, he]
  · intro he
    simp [commanderExec, he]

/-- C3 witness: a failing command's output is carried in non-verbose mode
and dropped in verbose mode. -/
theorem commanderExec_error_contents_witness :
    commanderExec false ⟨"some output", some "exit status 2", 5⟩ =
      .error ⟨"exit status 2", "some output"⟩ ∧
    commanderExec true ⟨"some output", some "exit status 2", 5⟩ =
      .error ⟨"exit status 2", ""⟩ :=
  ⟨(commanderExec_error_contents false ⟨"some output", some "exit status 2", 5⟩).1
      "exit status 2" rfl,
   (commanderExec_error_contents true ⟨"some output", some "exit status 2", 5⟩).1
      "exit status 2" rfl⟩

/-- C4: the markup transform keeps blank lines unchanged, replaces a line
containing the sentinel substring "old ns/op" by the pipe-delimited
header immediately followed by the separator row, and collapses the
whitespace runs of every other non-empty (non-sentinel) line into single
pipe separators. -/
theorem formatCommentToMD_lineRules (e : String) (rest : List String) :
    (formatLines ("" :: rest) = "" :: formatLines rest) ∧
    (strContains e "old ns/op" = true →
      formatLines (e :: rest) =
        "| Benchmark | Old ns/op | New ns/op | Delta |" :: "|-|-|-|-|" ::
          formatLines rest) ∧
    (e ≠ "" → isSentinel e = false →
      formatLines (e :: rest) =
        String.intercalate "|" (fields e) :: formatLines rest) := by
  refine ⟨by simp [formatLines], ?_, ?_⟩
  · intro hns
    have he : e ≠ "" := by
      intro h0
      rw [h0] at hns
      exact absurd hns (by decide)
    have hsep : mdRow sepRow = "|-|-|-|-|" := by decide
    simp [formatLines, he, hns, hsep]
  · intro he hs
    simp only [isSentinel, Bool.or_eq_false_iff] at hs
    obtain ⟨⟨⟨h1, h2⟩, h3⟩, h4⟩ := hs
    simp [formatLines, he, h1, h2, h3, h4, mdRow]

/-- C4 witness: the spec's example shape — a header line followed by a
data row — produces the pipe header, the separator row, and the collapsed
data row. -/
theorem formatCommentToMD_lineRules_witness :
    formatLines ["benchmark   old ns/op   new ns/op   delta",
        "BenchmarkParse-8   1000   900   -10.00%"] =
      ["| Benchmark | Old ns/op | New ns/op | Delta |", "|-|-|-|-|",
        "BenchmarkParse-8|1000|900|-10.00%"] := by
  have h1 := (formatCommentToMD_lineRules "benchmark   old ns/op   new ns/op   delta"
    ["BenchmarkParse-8   1000   900   -10.00%"]).2.1 (by decide)
  have h2 := (formatCommentToMD_lineRules "BenchmarkParse-8   1000   900   -10.00%"
    ([] : List String)).2.2 (by decide) (by decide)
  rw [h1, h2]
  decide

/-- C5: when the workspace-cleanliness pre-flight check fails, the
pipeline stops right there with that failure: no target resolution, no
benchmark execution, no worktree removal or creation takes place, and the
worktree registry is untouched — the trace holds the cleanliness check
alone. -/
theorem startBenchmark_dirty_preflight (w : BenchWorld) (ref : GitRef) (e : ExecErr)
    (hhead : w.repo.head = .ok ref)
    (hclean : commanderExec w.verbose w.cleanCmd = .error e) :
    startBenchmark w =
      (.error (.wrap "not clean worktree" (.msg (ExecErr.text e))), w.fs,
        [Event.checkCleanExec]) := by
  unfold startBenchmark
  rw [hhead, hclean]

/-- C5 witness: on `dirtyWorld` the pipeline stops at the cleanliness
check with the registry untouched. -/
theorem startBenchmark_dirty_preflight_witness :
    startBenchmark dirtyWorld =
      (.error (.wrap "not clean worktree"
          (.msg (ExecErr.text ⟨"exit status 1", ""⟩))),
        dirtyWorld.fs, [Event.checkCleanExec]) :=
  startBenchmark_dirty_preflight dirtyWorld ⟨"refs/heads/master", "aabb"⟩
    ⟨"exit status 1", ""⟩ rfl rfl

/-- C6: preparing the secondary worktree discards the outcome of the
best-effort removal (the result is exactly the creation step's result,
performed after the removal), so in the absence of environmental creation
failures two successive Prepare calls at the same path both succeed —
whether or not a worktree already existed there. -/
theorem prepareWorktree_idempotent (fs : FsState) (path rev : String)
    (h : fs.addFailsEnv = false) :
    (prepareWorktree fs path rev).2 = none ∧
    (prepareWorktree (prepareWorktree fs path rev).1 path rev).2 = none ∧
    prepareWorktree fs path rev =
      worktreeAdd ((worktreeRemove fs path).1) path rev := by
  refine ⟨?_, ?_, rfl⟩
  · rw [prepareWorktree_ok fs path rev h]
  · rw [prepareWorktree_ok fs path rev h]
    rw [prepareWorktree_ok _ path rev rfl]

/-- C6 witness: both successive Prepare calls succeed both when a
worktree pre-exists at the path and on the fresh state the first call
leaves behind. -/
theorem prepareWorktree_idempotent_witness :
    (prepareWorktree ⟨[("/repo/_funchbench-cmp", "aaaa")], false⟩
      "/repo/_funchbench-cmp" "bbbb").2 = none ∧
    (prepareWorktree
        (prepareWorktree ⟨[("/repo/_funchbench-cmp", "aaaa")], false⟩
          "/repo/_funchbench-cmp" "bbbb").1
        "/repo/_funchbench-cmp" "bbbb").2 = none :=
  ⟨(prepareWorktree_idempotent ⟨[("/repo/_funchbench-cmp", "aaaa")], false⟩
      "/repo/_funchbench-cmp" "bbbb" rfl).1,
   (prepareWorktree_idempotent ⟨[("/repo/_funchbench-cmp", "aaaa")], false⟩
      "/repo/_funchbench-cmp" "bbbb" rfl).2.1⟩

/-- C7: for a target that is neither `"."` nor the current branch name
nor the current head hash, resolution succeeds exactly when the branch
lookup does — yielding cross-revision mode with the branch's hash — and
propagates the lookup's error otherwise. -/
theorem getTargetInfo_branchLookup (repo : Repo) (r : GitRef) (target : String)
    (hhead : repo.head = .ok r) (hdot : target ≠ ".")
    (hnb : target ≠ trimRefsHeads r.name) (hnh : target ≠ r.hash) :
    (∀ t, repo.branchRef target = .ok t →
        getTargetInfo repo target = (t.hash, false, none)) ∧
    (∀ e, repo.branchRef target = .error e →
        getTargetInfo repo target = (zeroHash, false, some (.gitErr e))) := by
  have hor : ¬(target = trimRefsHeads r.name ∨ target = r.hash) := by
    rintro (h | h)
    · exact hnb h
    · exact hnh h
  constructor
  · intro t hbt
    unfold getTargetInfo
    rw [if_neg hdot, hhead]
    simp [if_neg hor, hbt]
  · intro e hbe
    unfold getTargetInfo
    rw [if_neg hdot, hhead]
    simp [if_neg hor, hbe]

/-- C7 witness: on `repoW`, the existing branch `devel` resolves to its
hash in cross-revision mode, and the missing branch `nope` fails with the
propagated lookup error. -/
theorem getTargetInfo_branchLookup_witness :
    getTargetInfo repoW "devel" = ("ccdd", false, none) ∧
    getTargetInfo repoW "nope" =
      (zeroHash, false, some (.gitErr "reference not found")) :=
  ⟨(getTargetInfo_branchLookup repoW ⟨"refs/heads/master", "aabb"⟩ "devel" rfl
      (by decide) (by decide) (by decide)).1 ⟨"refs/heads/devel", "ccdd"⟩ rfl,
   (getTargetInfo_branchLookup repoW ⟨"refs/heads/master", "aabb"⟩ "nope" rfl
      (by decide) (by decide) (by decide)).2 "reference not found" rfl⟩

/-- C8: when an automated run's pipeline fails and the best-effort error
notification fails too, the returned error is the original failure
wrapped with "could not log error" — the original error stays in the
unwrap chain and is never replaced. -/
theorem mainRun_wraps_original (w : MainWorld) (err : GoErr)
    (hb : (startBenchmark w.bw).1 = .error err)
    (hpr : w.ghPr ≠ 0) (hpe : w.postErrFails = true) :
    mainRun w = .error (.wrap "could not log error" err) ∧
    err ∈ (GoErr.wrap "could not log error" err).unwraps := by
  constructor
  · unfold mainRun
    rw [hb]
    simp [if_pos hpr, hpe]
  · simp [GoErr.unwraps, GoErr.self_mem_unwraps]

/-- C8 witness: on `mainWorldW` (head read fails, PR number 42, failing
notification) the result wraps the original "get head" failure. -/
theorem mainRun_wraps_original_witness :
    mainRun mainWorldW =
      .error (.wrap "could not log error" (.wrap "get head" (.msg "boom"))) ∧
    GoErr.wrap "get head" (.msg "boom") ∈
      (GoErr.wrap "could not log error"
        (.wrap "get head" (.msg "boom"))).unwraps :=
  mainRun_wraps_original mainWorldW (.wrap "get head" (.msg "boom")) rfl
    (by decide) rfl

/-- C9: a matched pair whose "old" metric value is zero gets the explicit
undefined delta marker, never a numeric fault. -/
theorem computeDelta_zero_old (newVal : Rat) :
    computeDelta 0 newVal = .undefined := by
  simp [computeDelta]

/-- C10: for every target other than `"."`, a `compareWithItself = true`
result of `getTargetInfo` always carries a non-nil error, and since the
orchestrator checks the error first, the sub-benchmark branch is never
entered — the superseded treat-same-revision-as-self-compare behaviour is
unreachable. -/
theorem selfCompare_only_for_dot (w : BenchWorld) (h : w.target ≠ ".") :
    ((getTargetInfo w.repo w.target).2.1 = true →
      (getTargetInfo w.repo w.target).2.2 ≠ none) ∧
    Event.subMode ∉ (startBenchmark w).2.2 :=
  ⟨getTargetInfo_flag_err w.repo w.target h, startBenchmark_no_subMode w h⟩

/-- C10 witness: on `benchWorldW`, whose target is the current branch
name, the sub-benchmark branch is never entered. -/
theorem selfCompare_only_for_dot_witness :
    Event.subMode ∉ (startBenchmark benchWorldW).2.2 :=
  (selfCompare_only_for_dot benchWorldW (by decide)).2

end Funcbench
